import Mathlib

/-!
Verification of the TradingPlan repository (swing-trade analyzer).

The repository ships the React frontend (StockScreener, PlanBuilder, ReportCard,
MarketDashboard, App) together with deployment configuration; the Python backend
(indicator engine, screening orchestrator, screening cache, trading-plan
builder, regime module) is not part of the source tree, only its HTTP callers
are.  Frontend logic is embedded directly from the JavaScript source; backend
operations are modelled from the specification, each such definition carrying a
doc comment that starts with `Modelled from the spec:`.

JavaScript numbers are embedded as rationals (ℚ), JS arrays as lists, and
fallible operations as `Option`/`Except`.  Mutable state (the screening cache,
browser localStorage) is passed explicitly; the single-flight cache is a step
relation on an explicit state type.
-/

namespace TradingPlanRepo

/-! ## Conviction tiers and the screener score badge (C8) -/

/-- Conviction tier of a numeric score. -/
inductive Conviction where
  | HIGH
  | MODERATE
  | LOW
deriving DecidableEq, Repr

/-- Modelled from the spec: the Scorer (backend, absent from the source tree)
assigns the conviction tier with thresholds HIGH when score ≥ 20, MODERATE when
10 ≤ score < 20, LOW when score < 10. -/
def convictionTier (s : ℚ) : Conviction :=
  if 20 ≤ s then .HIGH
  else if 10 ≤ s then .MODERATE
  else .LOW

/-- Embedded from src/unnamed/part_001 (StockScreener, score chip):
`color={stock.score >= 20 ? 'success' : stock.score >= 10 ? 'warning' : 'default'}`. -/
def scoreBadgeColor (s : ℚ) : String :=
  if 20 ≤ s then "success"
  else if 10 ≤ s then "warning"
  else "default"

/-- Embedded from src/frontend/src/components/ReportCard.js:
`getConvictionColor` maps HIGH to success, MODERATE to warning, LOW to error,
anything else to default. -/
def getConvictionColor (c : Conviction) : String :=
  match c with
  | .HIGH => "success"
  | .MODERATE => "warning"
  | .LOW => "error"

/-! ## Market regime classification (C9) -/

/-- Market regime, one of four values. -/
inductive Regime where
  | BULL_TREND
  | RISK_ON
  | RISK_OFF
  | UNCERTAIN
deriving DecidableEq, Repr

/-- Tunable regime thresholds (calm and stress volatility levels and the
breadth majority fraction); the spec leaves the exact numbers configurable. -/
structure RegimeThresholds where
  calm : ℚ
  stress : ℚ
  majority : ℚ
deriving Repr

/-- Breadth inputs of the regime rule: benchmark price, its SMA20 and SMA50,
the volatility index level, and the fraction of tracked sectors with positive
20-day performance. -/
structure RegimeInputs where
  price : ℚ
  sma20 : ℚ
  sma50 : ℚ
  vix : ℚ
  breadth : ℚ
deriving Repr

/-- Modelled from the spec: the Relative-Strength and Regime Module (backend,
absent from the source tree) classifies the regime by deterministic ordered
evaluation: BULL_TREND when price > SMA20 > SMA50 and the volatility index is
below the calm threshold; otherwise RISK_OFF when the volatility index is above
the stress threshold or price < SMA50; otherwise RISK_ON when breadth exceeds
the majority threshold; otherwise UNCERTAIN. -/
def classifyRegime (t : RegimeThresholds) (i : RegimeInputs) : Regime :=
  if i.sma20 < i.price ∧ i.sma50 < i.sma20 ∧ i.vix < t.calm then .BULL_TREND
  else if t.stress < i.vix ∨ i.price < i.sma50 then .RISK_OFF
  else if t.majority < i.breadth then .RISK_ON
  else .UNCERTAIN

/-! ## Screen results and their ordering (C4) -/

/-- Per-symbol record of a ScreenResult (symbol, score, price, volume,
market cap), as consumed by the StockScreener table. -/
structure ScreenRecord where
  symbol : String
  score : ℚ
  price : ℚ
  volume : ℚ
  market_cap : ℚ
deriving DecidableEq, Repr

/-- Modelled from the spec: the Screening Orchestrator (backend, absent from
the source tree) orders result records by score descending with ties broken by
symbol ascending.  `screenOrder a b` holds when a may precede b. -/
def screenOrder (a b : ScreenRecord) : Prop :=
  b.score < a.score ∨ (a.score = b.score ∧ a.symbol ≤ b.symbol)

instance : DecidableRel screenOrder := fun a b => by
  unfold screenOrder; infer_instance

instance : IsTotal ScreenRecord screenOrder where
  total a b := by
    rcases lt_trichotomy a.score b.score with h | h | h
    · exact Or.inr (Or.inl h)
    · rcases le_total a.symbol b.symbol with hs | hs
      · exact Or.inl (Or.inr ⟨h, hs⟩)
      · exact Or.inr (Or.inr ⟨h.symm, hs⟩)
    · exact Or.inl (Or.inl h)

instance : IsTrans ScreenRecord screenOrder where
  trans a b c hab hbc := by
    rcases hab with hab | ⟨hab, sab⟩ <;> rcases hbc with hbc | ⟨hbc, sbc⟩
    · exact Or.inl (hbc.trans hab)
    · exact Or.inl (hbc ▸ hab)
    · exact Or.inl (hab ▸ hbc)
    · exact Or.inr ⟨hab.trans hbc, sab.trans sbc⟩

/-- Modelled from the spec: the orchestrator aggregates surviving symbols into
a ScreenResult sorted by score descending, ties broken by symbol ascending;
embedded as a stable insertion sort under `screenOrder`. -/
def sortScreenResults (l : List ScreenRecord) : List ScreenRecord :=
  l.insertionSort screenOrder

/-- Ordering used by the screener's default display sort, embedded from
src/unnamed/part_001 (`runScreen` and `loadCachedResults`): the comparator
`(b.score || 0) - (a.score || 0)` puts a before b exactly when
b.score ≤ a.score (scores are always numeric in a ScreenResult). -/
def displayOrder (a b : ScreenRecord) : Prop :=
  b.score ≤ a.score

instance : DecidableRel displayOrder := fun a b => by
  unfold displayOrder; infer_instance

/-- Embedded from src/unnamed/part_001 (`runScreen`, default branch
`sortBy = score, sortOrder = desc`): the default display sort, a stable
JavaScript `Array.prototype.sort` with the score-descending comparator,
embedded as stable insertion sort under `displayOrder`. -/
def displaySort (l : List ScreenRecord) : List ScreenRecord :=
  l.insertionSort displayOrder

/-! ## Screener filter persistence (C10) -/

/-- JavaScript values produced by JSON.parse (null, booleans, numbers, strings,
arrays, objects as ordered field lists). -/
inductive Json where
  | null
  | bool (b : Bool)
  | num (q : ℚ)
  | str (s : String)
  | arr (elems : List Json)
  | obj (fields : List (String × Json))
deriving Repr

/-- Filter set held by the StockScreener component, embedded from
src/unnamed/part_001 (state shape of `filters`). -/
structure ScreenFilters where
  min_price : ℚ
  max_price : ℚ
  min_volume : ℚ
  min_market_cap : ℚ
  max_market_cap : String
  patterns : List String
deriving DecidableEq, Repr

/-- Embedded from src/unnamed/part_001 (`loadFilters`, fallback literal): the
default filter set. -/
def defaultFilters : ScreenFilters :=
  { min_price := 1
    max_price := 1000
    min_volume := 10000
    min_market_cap := 10000000
    max_market_cap := ""
    patterns := [] }

/-- JSON encoding of a filter set: the parse of
`JSON.stringify({min_price, max_price, min_volume, min_market_cap,
max_market_cap, patterns})`, the value written by the save effect of
src/unnamed/part_001. -/
def encodeFilters (f : ScreenFilters) : Json :=
  .obj [("min_price", .num f.min_price),
        ("max_price", .num f.max_price),
        ("min_volume", .num f.min_volume),
        ("min_market_cap", .num f.min_market_cap),
        ("max_market_cap", .str f.max_market_cap),
        ("patterns", .arr (f.patterns.map .str))]

/-- Decoder of a JSON array of strings. -/
def decodeStrings : List Json → Option (List String)
  | [] => some []
  | .str s :: rest => (decodeStrings rest).map (s :: ·)
  | _ => none

/-- Decoder of a JSON-encoded filter set, the inverse of `encodeFilters`. -/
def decodeFilters : Json → Option ScreenFilters
  | .obj [("min_price", .num a),
          ("max_price", .num b),
          ("min_volume", .num c),
          ("min_market_cap", .num d),
          ("max_market_cap", .str e),
          ("patterns", .arr ps)] =>
    (decodeStrings ps).map (fun pats =>
      { min_price := a, max_price := b, min_volume := c,
        min_market_cap := d, max_market_cap := e, patterns := pats })
  | _ => none

/-- State of the localStorage entry under the key screenerFilters: absent (no
entry, or the empty string, both falsy in the guard `if (saved)`), corrupt (a
string JSON.parse throws on), or parseable (abstracted by its parsed value). -/
inductive StoredEntry where
  | absent
  | corrupt
  | parsed (v : Json)
deriving Repr

/-- Embedded from src/unnamed/part_001 (`loadFilters`): inside a try block,
read localStorage.getItem of screenerFilters and return JSON.parse of it when
the entry is truthy and parseable; on a missing entry, a parse failure, or the
storage itself throwing, fall through to the default filter literal.  The
storage-throwing case is the `throws` flag; JSON.parse and JSON.stringify are
abstracted as the identity on parsed `Json` values, with `StoredEntry.corrupt`
standing for any unparseable string. -/
def loadFilters (throws : Bool) (entry : StoredEntry) : Json :=
  if throws then encodeFilters defaultFilters
  else
    match entry with
    | .parsed v => v
    | _ => encodeFilters defaultFilters

/-- Embedded from src/unnamed/part_001 (save effect): every filter change
writes `JSON.stringify(filters)` back under the key screenerFilters; a
successful write leaves a parseable entry holding the encoded filter set. -/
def saveFilters (f : ScreenFilters) : StoredEntry :=
  .parsed (encodeFilters f)

/-! ## Screening cache: get-or-compute (C2) -/

/-- Screening-cache store: entries keyed by the canonicalized ScreenFilter plus
the trading date.  The canonical filter hash of the spec is modelled by the
canonicalized filter itself (a perfect hash); the trading date is a day
number. -/
def ScreenCache : Type :=
  List ((ScreenFilters × ℕ) × List ScreenRecord)

/-- Lookup of a cache key in the store. -/
def cacheLookup (key : ScreenFilters × ℕ) : ScreenCache → Option (List ScreenRecord)
  | [] => none
  | (k, v) :: rest => if k = key then some v else cacheLookup key rest

/-- Response of a screen call: the result records plus cache metadata
(served-from-cache flag and the trading date the entry is tagged with). -/
structure ScreenResponse where
  results : List ScreenRecord
  from_cache : Bool
  cache_date : ℕ
deriving DecidableEq, Repr

/-- Modelled from the spec: the Screening Cache get-or-compute contract
(backend, absent from the source tree) — a hit returns the stored ScreenResult
with served-from-cache true; a miss runs the Screening Orchestrator `orch`,
stores the result keyed by (canonical filter, trading date), and returns it
with served-from-cache false. -/
def screen (orch : ScreenFilters → List ScreenRecord) (f : ScreenFilters)
    (date : ℕ) (cache : ScreenCache) : ScreenResponse × ScreenCache :=
  match cacheLookup (f, date) cache with
  | some res => (⟨res, true, date⟩, cache)
  | none =>
    let res := orch f
    (⟨res, false, date⟩, ((f, date), res) :: cache)

/-- Fixed demonstration orchestrator used by concrete cache scenarios. -/
def demoOrch : ScreenFilters → List ScreenRecord :=
  fun _ => [⟨"AAPL", 25, 180, 2000, 200⟩]

/-! ## Screening cache: single-flight coalescing (C3) -/

/-- State of the single-flight cache for one fixed key: the stored result (if
any), whether an orchestrator run is live, how many callers await the live
run, the results delivered to callers so far, and how many orchestrator runs
were ever started. -/
structure FlightState where
  stored : Option (List ScreenRecord)
  inflight : Bool
  waiting : ℕ
  served : List (List ScreenRecord)
  runs : ℕ
deriving Repr

/-- Initial state: the cache holds no entry for the key and no run is live. -/
def initFlight : FlightState :=
  ⟨none, false, 0, [], 0⟩

/-- Modelled from the spec: interleaved events of the single-flight cache for
one key whose computation yields `compute` — a caller arriving on a filled
cache is served the stored result; a caller arriving on an empty cache with no
live run starts the one orchestrator run and awaits it; a caller arriving
while a run is live joins the waiters instead of starting a duplicate run; a
completing run stores its result and serves every waiter. -/
inductive FlightStep (compute : List ScreenRecord) : FlightState → FlightState → Prop where
  | hit {s : FlightState} (r : List ScreenRecord) (h : s.stored = some r) :
      FlightStep compute s { s with served := r :: s.served }
  | missStart {s : FlightState} (h1 : s.stored = none) (h2 : s.inflight = false) :
      FlightStep compute s
        { s with inflight := true, waiting := s.waiting + 1, runs := s.runs + 1 }
  | missJoin {s : FlightState} (h1 : s.stored = none) (h2 : s.inflight = true) :
      FlightStep compute s { s with waiting := s.waiting + 1 }
  | complete {s : FlightState} (h : s.inflight = true) :
      FlightStep compute s
        { s with inflight := false, stored := some compute,
                 served := List.replicate s.waiting compute ++ s.served,
                 waiting := 0 }

/-- Reachability of a single-flight state from the empty-cache initial state. -/
def FlightReachable (compute : List ScreenRecord) (s : FlightState) : Prop :=
  Relation.ReflTransGen (FlightStep compute) initFlight s

/-- Invariant of the single-flight cache: either no run was ever started and
nothing happened, or exactly one run was started, every delivered result is
that run's result, and the run is either still live (cache empty) or completed
(its result stored, no waiters). -/
def FlightInv (compute : List ScreenRecord) (s : FlightState) : Prop :=
  (s.runs = 0 ∧ s.stored = none ∧ s.inflight = false ∧ s.waiting = 0 ∧ s.served = [])
  ∨ (s.runs = 1 ∧ (∀ r ∈ s.served, r = compute) ∧
      ((s.inflight = true ∧ s.stored = none) ∨
        (s.inflight = false ∧ s.stored = some compute ∧ s.waiting = 0)))

/-! ## Indicator engine: lookback policy (C6) and Fibonacci levels (C7) -/

/-- Daily OHLCV bar of a BarSeries (ascending by date, most recent last). -/
structure Bar where
  high : ℚ
  low : ℚ
  close : ℚ
  volume : ℚ
deriving DecidableEq, Repr

/-- Last n elements of a list. -/
def lastN (n : ℕ) (l : List α) : List α :=
  l.drop (l.length - n)

/-- Closing prices of a bar series. -/
def closesOf (bars : List Bar) : List ℚ :=
  bars.map Bar.close

/-- Consecutive differences of a price list. -/
def diffs (l : List ℚ) : List ℚ :=
  List.zipWith (fun a b => b - a) l l.tail

/-- Modelled from the spec: the Indicator Engine (backend, absent from the
source tree) computes the simple moving average of the last n closes, absent
when fewer than n bars precede the as-of date. -/
def sma (n : ℕ) (bars : List Bar) : Option ℚ :=
  if n ≤ bars.length then some ((lastN n (closesOf bars)).sum / n) else none

/-- Modelled from the spec: RSI(14) with Wilder initialization — average gain
versus average loss over the last 14 close-to-close changes (15 bars of
required lookback), absent with fewer bars. -/
def rsi14 (bars : List Bar) : Option ℚ :=
  if 15 ≤ bars.length then
    let ds := diffs (lastN 15 (closesOf bars))
    let gain := (ds.map (fun d => max d 0)).sum / 14
    let loss := (ds.map (fun d => max (-d) 0)).sum / 14
    some (if loss = 0 then 100 else 100 - 100 / (1 + gain / loss))
  else none

/-- Exponential moving average with smoothing 2/(n+1), seeded at the first
price. -/
def emaList (n : ℕ) (l : List ℚ) : ℚ :=
  match l with
  | [] => 0
  | x :: xs => xs.foldl (fun acc c => acc + (2 / (n + 1)) * (c - acc)) x

/-- Modelled from the spec: the MACD line, EMA(12) minus EMA(26) of the
closes, with a required lookback of 26 bars, absent with fewer bars. -/
def macdLine (bars : List Bar) : Option ℚ :=
  if 26 ≤ bars.length then
    some (emaList 12 (closesOf bars) - emaList 26 (closesOf bars))
  else none

/-- MACD-line series: for every prefix of the closes, EMA(12) minus EMA(26)
of that prefix. -/
def macdSeries (closes : List ℚ) : List ℚ :=
  (List.range closes.length).map
    (fun i => emaList 12 (closes.take (i + 1)) - emaList 26 (closes.take (i + 1)))

/-- Modelled from the spec: the MACD signal line, the 9-EMA of the MACD line
series, with a required lookback of 34 bars (the ninth MACD value needs 26
bars), absent with fewer bars. -/
def macdSignal (bars : List Bar) : Option ℚ :=
  if 34 ≤ bars.length then some (emaList 9 (macdSeries (closesOf bars))) else none

/-- Modelled from the spec: the MACD histogram, MACD line minus signal line,
with the signal line's required lookback of 34 bars, absent with fewer
bars. -/
def macdHistogram (bars : List Bar) : Option ℚ :=
  if 34 ≤ bars.length then
    some ((emaList 12 (closesOf bars) - emaList 26 (closesOf bars)) -
      emaList 9 (macdSeries (closesOf bars)))
  else none

/-- True ranges of consecutive bar pairs:
max(high − low, |high − prevClose|, |low − prevClose|). -/
def trueRanges : List Bar → List ℚ
  | [] => []
  | [_] => []
  | a :: b :: rest =>
    max (b.high - b.low) (max |b.high - a.close| |b.low - a.close|)
      :: trueRanges (b :: rest)

/-- Positive directional movement of a consecutive bar pair. -/
def dmPlus (a b : Bar) : ℚ :=
  if a.low - b.low < b.high - a.high ∧ 0 < b.high - a.high then b.high - a.high else 0

/-- Negative directional movement of a consecutive bar pair. -/
def dmMinus (a b : Bar) : ℚ :=
  if b.high - a.high < a.low - b.low ∧ 0 < a.low - b.low then a.low - b.low else 0

/-- Directional index DX of a 15-bar window (14 consecutive pairs): the
directional indicators are the 14-period directional-movement sums over the
true-range sum, and DX is 100 × |DI+ − DI−| / (DI+ + DI−). -/
def dxAt (window : List Bar) : ℚ :=
  let prs := window.zip window.tail
  let trS := (trueRanges window).sum
  let pS := (prs.map (fun ab => dmPlus ab.1 ab.2)).sum
  let mS := (prs.map (fun ab => dmMinus ab.1 ab.2)).sum
  let diP := if trS = 0 then 0 else 100 * pS / trS
  let diM := if trS = 0 then 0 else 100 * mS / trS
  if diP + diM = 0 then 0 else 100 * |diP - diM| / (diP + diM)

/-- Modelled from the spec: ATR(14), the average of the last 14 true ranges
(15 bars of required lookback because a true range needs the previous close),
absent with fewer bars. -/
def atr14 (bars : List Bar) : Option ℚ :=
  if 15 ≤ bars.length then some ((trueRanges (lastN 15 bars)).sum / 14) else none

/-- Modelled from the spec: ADX(14) with Wilder-style 14-period averaging —
the mean of the last 14 DX values, each computed from the 14-sum directional
indicators of its 15-bar window; required lookback 28 bars, absent with fewer
bars. -/
def adx14 (bars : List Bar) : Option ℚ :=
  if 28 ≤ bars.length then
    some (((List.range 14).map (fun i => dxAt ((lastN (15 + i) bars).take 15))).sum / 14)
  else none

/-- Modelled from the spec: 20-day average volume, absent with fewer than 20
bars. -/
def volAvg20 (bars : List Bar) : Option ℚ :=
  if 20 ≤ bars.length then some (((lastN 20 bars).map Bar.volume).sum / 20) else none

/-- Modelled from the spec: volume ratio, today's volume over the 20-day
average, absent with fewer than 20 bars. -/
def volRatio20 (bars : List Bar) : Option ℚ :=
  if 20 ≤ bars.length then
    some ((bars.getLast?.elim 0 Bar.volume) / (((lastN 20 bars).map Bar.volume).sum / 20))
  else none

/-- Modelled from the spec: the volume-spike flag, ratio ≥ 2.0, derived from
the volume ratio and therefore absent exactly when the ratio is. -/
def volSpike20 (bars : List Bar) : Option Bool :=
  (volRatio20 bars).map (fun r => decide (2 ≤ r))

/-- Modelled from the spec: the per-symbol IndicatorSet at the as-of date —
RSI(14), MACD(line, signal, histogram), ADX(14), ATR(14), the Bollinger
20-period mid band, SMA20, SMA50 and the VolumeMetrics (avg20, ratio, spike).
Every field is optional and absent exactly when its required lookback exceeds
the available history.  The Bollinger upper and lower bands are the mid band
plus and minus two standard deviations; the standard deviation needs a real
square root, so those two prices are left out of the rational embedding (their
presence policy is that of the mid band). -/
structure IndicatorSet where
  rsi : Option ℚ
  macd : Option ℚ
  macd_signal : Option ℚ
  macd_histogram : Option ℚ
  adx : Option ℚ
  atr : Option ℚ
  boll_mid : Option ℚ
  sma20 : Option ℚ
  sma50 : Option ℚ
  vol_avg20 : Option ℚ
  vol_ratio : Option ℚ
  vol_spike : Option Bool
deriving DecidableEq, Repr

/-- Modelled from the spec: the Indicator Engine run, computing every field of
the IndicatorSet from a bar series. -/
def computeIndicators (bars : List Bar) : IndicatorSet :=
  { rsi := rsi14 bars
    macd := macdLine bars
    macd_signal := macdSignal bars
    macd_histogram := macdHistogram bars
    adx := adx14 bars
    atr := atr14 bars
    boll_mid := sma 20 bars
    sma20 := sma 20 bars
    sma50 := sma 50 bars
    vol_avg20 := volAvg20 bars
    vol_ratio := volRatio20 bars
    vol_spike := volSpike20 bars }

/-- Names of the IndicatorSet fields. -/
inductive IndField where
  | rsi
  | macd
  | macd_signal
  | macd_histogram
  | adx
  | atr
  | boll_mid
  | sma20
  | sma50
  | vol_avg20
  | vol_ratio
  | vol_spike
deriving DecidableEq, Repr

/-- Required lookback of each IndicatorSet field, in bars. -/
def lookbackOf : IndField → ℕ
  | .rsi => 15
  | .macd => 26
  | .macd_signal => 34
  | .macd_histogram => 34
  | .adx => 28
  | .atr => 15
  | .boll_mid => 20
  | .sma20 => 20
  | .sma50 => 50
  | .vol_avg20 => 20
  | .vol_ratio => 20
  | .vol_spike => 20

/-- Value of a present IndicatorSet field: a numeric indicator or the boolean
volume-spike flag. -/
inductive IndValue where
  | num (q : ℚ)
  | flag (b : Bool)
deriving DecidableEq, Repr

/-- Projection of an IndicatorSet field by name. -/
def getField : IndField → IndicatorSet → Option IndValue
  | .rsi, s => s.rsi.map .num
  | .macd, s => s.macd.map .num
  | .macd_signal, s => s.macd_signal.map .num
  | .macd_histogram, s => s.macd_histogram.map .num
  | .adx, s => s.adx.map .num
  | .atr, s => s.atr.map .num
  | .boll_mid, s => s.boll_mid.map .num
  | .sma20, s => s.sma20.map .num
  | .sma50, s => s.sma50.map .num
  | .vol_avg20, s => s.vol_avg20.map .num
  | .vol_ratio, s => s.vol_ratio.map .num
  | .vol_spike, s => s.vol_spike.map .flag

/-- Embedded from src/frontend/src/components/ReportCard.js (Key Indicators
block): an indicator renders through its formatter (toFixed) when present and
as the string N/A when null; a present boolean flag surfaces as its truth
value (the screener shows the spike as chip state). -/
def renderField (fmt : ℚ → String) : Option IndValue → String
  | some (.num v) => fmt v
  | some (.flag b) => if b then "true" else "false"
  | none => "N/A"

/-- Modelled from the spec: the Scorer boundary treats an absent indicator as
no opinion — it contributes no score term at all, rather than a zero term. -/
def scoreTerms (w : IndValue → ℚ) : Option IndValue → List ℚ
  | some v => [w v]
  | none => []

/-- Fibonacci ratio labels, in ascending order. -/
def fibRatios : List ℚ :=
  [0, 236/1000, 382/1000, 1/2, 618/1000, 786/1000, 1]

/-- Maximum high within a lookback window of bars. -/
def swingHigh : List Bar → ℚ
  | [] => 0
  | b :: bs => (bs.map Bar.high).foldl max b.high

/-- Minimum low within a lookback window of bars. -/
def swingLow : List Bar → ℚ
  | [] => 0
  | b :: bs => (bs.map Bar.low).foldl min b.low

/-- Modelled from the spec: the swing direction is fixed once per computation
— uptrend retracement when the minimum low precedes the maximum high
chronologically (by first occurrence), downtrend retracement otherwise. -/
def fibUptrend (w : List Bar) : Bool :=
  decide ((w.map Bar.low).indexOf (swingLow w) < (w.map Bar.high).indexOf (swingHigh w))

/-- Modelled from the spec: the FibonacciLevels mapping from ratio label to
price — low + ratio × (high − low) for an uptrend retracement, reversed
(high − ratio × (high − low)) for a downtrend retracement. -/
def fibLevels (w : List Bar) : List (ℚ × ℚ) :=
  let hi := swingHigh w
  let lo := swingLow w
  if fibUptrend w then fibRatios.map (fun r => (r, lo + r * (hi - lo)))
  else fibRatios.map (fun r => (r, hi - r * (hi - lo)))

/-! ## Trading Plan Builder (C1) and NoCandidates error handling (C5) -/

/-- Backend ScreenFilter: price range, volume floor, market-cap range and the
required pattern set (a symbol must match at least one requested pattern when
the set is non-empty). -/
structure ScreenFilter where
  min_price : ℚ
  max_price : ℚ
  min_volume : ℚ
  min_market_cap : ℚ
  max_market_cap : Option ℚ
  patterns : List String
deriving DecidableEq, Repr

/-- Screened candidate as consumed by the Trading Plan Builder: market data,
matched patterns, composite score and the levels used for stop placement. -/
structure Candidate where
  symbol : String
  price : ℚ
  volume : ℚ
  market_cap : ℚ
  patterns : List String
  score : ℚ
  support : ℚ
  atr : ℚ
deriving DecidableEq, Repr

/-- Modelled from the spec: the orchestrator filter predicates — price range,
volume floor, market-cap range, and pattern membership (at least one requested
pattern when the requested set is non-empty). -/
def matchesFilter (flt : ScreenFilter) (c : Candidate) : Bool :=
  decide (flt.min_price ≤ c.price) && decide (c.price ≤ flt.max_price) &&
  decide (flt.min_volume ≤ c.volume) &&
  decide (flt.min_market_cap ≤ c.market_cap) &&
  (match flt.max_market_cap with
   | none => true
   | some m => decide (c.market_cap ≤ m)) &&
  (flt.patterns.isEmpty || flt.patterns.any (fun p => c.patterns.contains p))

/-- Modelled from the spec: the universe surviving the filter predicates. -/
def applyFilter (flt : ScreenFilter) (univ : List Candidate) : List Candidate :=
  univ.filter (matchesFilter flt)

/-- Candidate ranking of the plan builder: score descending, ties broken by
symbol ascending. -/
def candOrder (a b : Candidate) : Prop :=
  b.score < a.score ∨ (a.score = b.score ∧ a.symbol ≤ b.symbol)

instance : DecidableRel candOrder := fun a b => by
  unfold candOrder; infer_instance

/-- TradingPlanConfig: plan name, total capital, risk percentage per position,
max position count and the embedded ScreenFilter. -/
structure TradingPlanConfig where
  plan_name : String
  total_capital : ℚ
  risk_percentage : ℚ
  max_positions : ℕ
  filters : ScreenFilter
deriving Repr

/-- PlanPosition fields involved in the capital and risk invariants: symbol,
prices, share count, position value, stop and risked amount.  The
support/resistance levels, profit-target ladder and matched-pattern list of
the full PlanPosition play no part in the verified claims and are omitted. -/
structure PlanPosition where
  symbol : String
  current_price : ℚ
  suggested_entry : ℚ
  shares : ℕ
  position_value : ℚ
  stop_loss : ℚ
  risk_amount : ℚ
deriving DecidableEq, Repr

/-- TradingPlan: name, capital info and the ordered position list. -/
structure TradingPlan where
  plan_name : String
  total_capital : ℚ
  allocated_capital : ℚ
  positions : List PlanPosition
deriving Repr

/-- Errors of the plan-builder operation: the distinct, user-actionable
NoCandidates error versus any generic server failure. -/
inductive PlanError where
  | noCandidates
  | serverError
deriving DecidableEq, Repr

/-- Stop-distance multiple k of the ATR-based stop (entry − k × ATR). -/
def stopMultiple : ℚ := 2

/-- Modelled from the spec: one sized position — risk_amount = total_capital ×
risk_percentage / 100 (passed in), suggested entry = current price, stop =
max(nearest support, entry − k × ATR), shares = floor(risk_amount / (entry −
stop)), position value = shares × entry; the candidate is skipped when
entry ≤ stop. -/
def buildPosition (riskAmount : ℚ) (c : Candidate) : Option PlanPosition :=
  let entry := c.price
  let stop := max c.support (entry - stopMultiple * c.atr)
  if entry ≤ stop then none
  else
    let shares := (⌊riskAmount / (entry - stop)⌋).toNat
    some { symbol := c.symbol
           current_price := c.price
           suggested_entry := entry
           shares := shares
           position_value := (shares : ℚ) * entry
           stop_loss := stop
           risk_amount := riskAmount }

/-- Modelled from the spec: proportional scale-down of a position's share
count by a factor (floor of shares × factor), with the position value
recomputed from the new share count. -/
def scaleShares (factor : ℚ) (p : PlanPosition) : PlanPosition :=
  let sh := (⌊(p.shares : ℚ) * factor⌋).toNat
  { p with shares := sh, position_value := (sh : ℚ) * p.suggested_entry }

/-- Candidates surviving the embedded filter of a plan configuration. -/
def planCandidates (cfg : TradingPlanConfig) (univ : List Candidate) : List Candidate :=
  applyFilter cfg.filters univ

/-- Modelled from the spec: positions sized from the top max_positions
candidates by score, skipping candidates whose entry does not exceed the
stop. -/
def planPositionsRaw (cfg : TradingPlanConfig) (univ : List Candidate) : List PlanPosition :=
  (((planCandidates cfg univ).insertionSort candOrder).take cfg.max_positions).filterMap
    (buildPosition (cfg.total_capital * cfg.risk_percentage / 100))

/-- Modelled from the spec: when the aggregate position value exceeds the
total capital, share counts are scaled down proportionally (deterministic
pro-rata). -/
def planPositionsFinal (cfg : TradingPlanConfig) (univ : List Candidate) : List PlanPosition :=
  if cfg.total_capital < ((planPositionsRaw cfg univ).map PlanPosition.position_value).sum then
    (planPositionsRaw cfg univ).map
      (scaleShares (cfg.total_capital /
        ((planPositionsRaw cfg univ).map PlanPosition.position_value).sum))
  else planPositionsRaw cfg univ

/-- Modelled from the spec: createPlan — run the orchestrator with the
embedded filter, fail with the distinct NoCandidates error exactly when zero
symbols survive, otherwise build the sized position list and the capital
info. -/
def createPlan (cfg : TradingPlanConfig) (univ : List Candidate) :
    Except PlanError TradingPlan :=
  if (planCandidates cfg univ).isEmpty then .error .noCandidates
  else
    .ok { plan_name := cfg.plan_name
          total_capital := cfg.total_capital
          allocated_capital :=
            ((planPositionsFinal cfg univ).map PlanPosition.position_value).sum
          positions := planPositionsFinal cfg univ }

/-- Modelled from the spec: the HTTP status the API layer attaches to a
plan-builder outcome — NoCandidates is distinguishable from a generic server
error as status 404; any other failure is a generic 500; success carries no
error status. -/
def planStatus : Except PlanError TradingPlan → Option ℕ
  | .error .noCandidates => some 404
  | .error .serverError => some 500
  | .ok _ => none

/-- Embedded from src/frontend/src/components/PlanBuilder.js (`createPlan`
catch block): a 404 response shows the loosen-your-filters suggestion, every
other failure shows the generic message built from the response detail or the
error message. -/
def planBuilderErrorMessage (status : Option ℕ) (detail : Option String)
    (message : String) : String :=
  if status = some 404 then
    "No stocks found matching your criteria. Try reducing the pattern filters or adjusting price/volume ranges."
  else
    "Failed to create trading plan: " ++ detail.getD message

/-- Demonstration plan configuration with a permissive filter. -/
def demoConfig : TradingPlanConfig :=
  ⟨"Demo", 4000, 2, 3, ⟨0, 1000, 0, 0, none, []⟩⟩

/-- Demonstration one-candidate universe. -/
def demoUniverse : List Candidate :=
  [⟨"AAPL", 180, 2000, 200, [], 25, 170, 5⟩]

/-- Demonstration plan: the successful createPlan outcome on the
demonstration inputs. -/
def demoPlan : TradingPlan :=
  ((createPlan demoConfig demoUniverse).toOption).getD ⟨"", 0, 0, []⟩

end TradingPlanRepo

namespace TradingPlanRepo

/-- Auxiliary: the single-flight invariant holds initially. -/
theorem flightInv_init (compute : List ScreenRecord) : FlightInv compute initFlight :=
  Or.inl ⟨rfl, rfl, rfl, rfl, rfl⟩

/-- Auxiliary: the single-flight invariant is preserved by every step. -/
theorem flightInv_step {compute : List ScreenRecord} {s t : FlightState}
    (hinv : FlightInv compute s) (hstep : FlightStep compute s t) :
    FlightInv compute t := by
  cases hstep with
  | hit r hr =>
    rcases hinv with ⟨_, hst, _⟩ | ⟨h1, hserved, hcase⟩
    · rw [hst] at hr; cases hr
    · rcases hcase with ⟨_, hst⟩ | ⟨hin, hst, hw⟩
      · rw [hst] at hr; cases hr
      · rw [hst] at hr
        injection hr with hr
        refine Or.inr ⟨h1, ?_, Or.inr ⟨hin, hst, hw⟩⟩
        intro x hx
        rcases List.mem_cons.mp hx with hx | hx
        · rw [hx, ← hr]
        · exact hserved x hx
  | missStart h1 h2 =>
    rcases hinv with ⟨h0, hst, hin, hw, hsv⟩ | ⟨hr1, hserved, hcase⟩
    · refine Or.inr ⟨by simp [h0], ?_, Or.inl ⟨rfl, h1⟩⟩
      simp [hsv]
    · rcases hcase with ⟨hin, _⟩ | ⟨_, hst, _⟩
      · rw [hin] at h2; cases h2
      · rw [hst] at h1; cases h1
  | missJoin h1 h2 =>
    rcases hinv with ⟨_, _, hin, _⟩ | ⟨hr1, hserved, hcase⟩
    · rw [hin] at h2; cases h2
    · rcases hcase with ⟨hin, hst⟩ | ⟨_, hst, _⟩
      · exact Or.inr ⟨hr1, hserved, Or.inl ⟨hin, hst⟩⟩
      · rw [hst] at h1; cases h1
  | complete h =>
    rcases hinv with ⟨_, _, hin, _⟩ | ⟨hr1, hserved, hcase⟩
    · rw [hin] at h; cases h
    · refine Or.inr ⟨hr1, ?_, Or.inr ⟨rfl, rfl, rfl⟩⟩
      intro x hx
      rcases List.mem_append.mp hx with hx | hx
      · exact List.eq_of_mem_replicate hx
      · exact hserved x hx

/-- Auxiliary: the single-flight invariant holds in every reachable state. -/
theorem flightInv_reachable {compute : List ScreenRecord} {s : FlightState}
    (h : FlightReachable compute s) : FlightInv compute s := by
  induction h with
  | refl => exact flightInv_init compute
  | tail _ hstep ih => exact flightInv_step ih hstep

/-- Auxiliary: decoding an encoded list of strings succeeds. -/
theorem decodeStrings_map_str (l : List String) :
    decodeStrings (l.map Json.str) = some l := by
  induction l with
  | nil => rfl
  | cons s rest ih => simp [decodeStrings, ih]

/-- Auxiliary: the cast of the clamped floor of a nonnegative rational is at
most that rational. -/
theorem toNat_floor_le (x : ℚ) (hx : 0 ≤ x) : ((⌊x⌋.toNat : ℚ)) ≤ x := by
  have h0 : (0 : ℤ) ≤ ⌊x⌋ := Int.floor_nonneg.mpr hx
  have h1 : ((⌊x⌋.toNat : ℤ) : ℚ) ≤ x := by
    rw [Int.toNat_of_nonneg h0]
    exact Int.floor_le x
  exact_mod_cast h1

/-- Auxiliary: fields of a successfully built position. -/
theorem buildPosition_fields {ra : ℚ} {c : Candidate} {p : PlanPosition}
    (h : buildPosition ra c = some p) :
    p.risk_amount = ra ∧ p.position_value = (p.shares : ℚ) * p.suggested_entry ∧
    p.suggested_entry = c.price := by
  unfold buildPosition at h
  dsimp only at h
  split at h
  · cases h
  · obtain rfl := Option.some.inj h
    exact ⟨rfl, rfl, rfl⟩

/-- Auxiliary: proportionally scaled positions sum to at most the factor times
the original aggregate value. -/
theorem scaled_sum_le (factor : ℚ) (hf : 0 ≤ factor) :
    ∀ ps : List PlanPosition,
      (∀ p ∈ ps, 0 ≤ p.suggested_entry ∧
        p.position_value = (p.shares : ℚ) * p.suggested_entry) →
      ((ps.map (scaleShares factor)).map PlanPosition.position_value).sum ≤
        factor * (ps.map PlanPosition.position_value).sum := by
  intro ps
  induction ps with
  | nil => intro _; simp
  | cons p rest ih =>
    intro h
    have hrest := ih (fun q hq => h q (List.mem_cons_of_mem p hq))
    have hp := h p (List.mem_cons_self p rest)
    have hhead : (scaleShares factor p).position_value ≤ factor * p.position_value := by
      show ((⌊(p.shares : ℚ) * factor⌋.toNat : ℚ)) * p.suggested_entry ≤
        factor * p.position_value
      rw [hp.2]
      have hx : (0 : ℚ) ≤ (p.shares : ℚ) * factor :=
        mul_nonneg (Nat.cast_nonneg p.shares) hf
      calc ((⌊(p.shares : ℚ) * factor⌋.toNat : ℚ)) * p.suggested_entry
          ≤ ((p.shares : ℚ) * factor) * p.suggested_entry :=
            mul_le_mul_of_nonneg_right (toNat_floor_le _ hx) hp.1
        _ = factor * ((p.shares : ℚ) * p.suggested_entry) := by ring
    simp only [List.map_cons, List.sum_cons, mul_add]
    linarith

/-- Auxiliary: a list of positions with a constant risked amount sums to the
position count times that amount. -/
theorem sum_risk_const (k : ℚ) :
    ∀ l : List PlanPosition, (∀ p ∈ l, p.risk_amount = k) →
      (l.map PlanPosition.risk_amount).sum = l.length * k := by
  intro l
  induction l with
  | nil => intro _; simp
  | cons p rest ih =>
    intro h
    simp only [List.map_cons, List.sum_cons, List.length_cons]
    rw [h p (List.mem_cons_self p rest),
      ih (fun q hq => h q (List.mem_cons_of_mem p hq))]
    push_cast
    ring

/-- Auxiliary: every raw plan position carries the configured risk amount, a
nonnegative entry price (every candidate surviving a validated filter sells at
no less than the nonnegative minimum price), and a value equal to shares times
entry. -/
theorem planPositionsRaw_mem (cfg : TradingPlanConfig) (univ : List Candidate)
    (hminp : 0 ≤ cfg.filters.min_price) :
    ∀ p ∈ planPositionsRaw cfg univ,
      p.risk_amount = cfg.total_capital * cfg.risk_percentage / 100 ∧
      0 ≤ p.suggested_entry ∧
      p.position_value = (p.shares : ℚ) * p.suggested_entry := by
  intro p hp
  obtain ⟨c, hc, hbc⟩ := List.mem_filterMap.mp hp
  obtain ⟨hr, hv, he⟩ := buildPosition_fields hbc
  have h1 := List.take_subset _ _ hc
  have h2 : c ∈ planCandidates cfg univ :=
    (List.perm_insertionSort candOrder _).subset h1
  have hpred := (List.mem_filter.mp h2).2
  have hcp : cfg.filters.min_price ≤ c.price := by
    simp only [matchesFilter, Bool.and_eq_true, decide_eq_true_eq] at hpred
    exact hpred.1.1.1.1.1
  refine ⟨hr, ?_, hv⟩
  rw [he]
  exact le_trans hminp hcp

/-- C1: every TradingPlan produced by createPlan keeps the sum of position
values within the total capital, and the sum of risked amounts within
total_capital × risk_percentage / 100 × max_positions, for validated inputs
(nonnegative capital, risk percentage and filter minimum price). -/
theorem plan_capital_and_risk_invariants (cfg : TradingPlanConfig)
    (univ : List Candidate) (plan : TradingPlan)
    (hcap : 0 ≤ cfg.total_capital) (hrisk : 0 ≤ cfg.risk_percentage)
    (hminp : 0 ≤ cfg.filters.min_price)
    (hok : createPlan cfg univ = .ok plan) :
    (plan.positions.map PlanPosition.position_value).sum ≤ cfg.total_capital ∧
    (plan.positions.map PlanPosition.risk_amount).sum ≤
      cfg.total_capital * cfg.risk_percentage / 100 * cfg.max_positions := by
  have hmem := planPositionsRaw_mem cfg univ hminp
  have hppos : plan.positions = planPositionsFinal cfg univ := by
    unfold createPlan at hok
    split at hok
    · cases hok
    · injection hok with h
      rw [← h]
  set ra := cfg.total_capital * cfg.risk_percentage / 100 with hra
  have hra0 : 0 ≤ ra := div_nonneg (mul_nonneg hcap hrisk) (by norm_num)
  constructor
  · rw [hppos]
    unfold planPositionsFinal
    by_cases hscale : cfg.total_capital <
        ((planPositionsRaw cfg univ).map PlanPosition.position_value).sum
    · rw [if_pos hscale]
      have h0 : 0 < ((planPositionsRaw cfg univ).map PlanPosition.position_value).sum :=
        lt_of_le_of_lt hcap hscale
      have hb := scaled_sum_le
        (cfg.total_capital /
          ((planPositionsRaw cfg univ).map PlanPosition.position_value).sum)
        (div_nonneg hcap h0.le) (planPositionsRaw cfg univ)
        (fun p hp => (hmem p hp).2)
      exact hb.trans (le_of_eq (div_mul_cancel₀ _ (ne_of_gt h0)))
    · rw [if_neg hscale]
      exact le_of_not_lt hscale
  · rw [hppos]
    have hall : ∀ p ∈ planPositionsFinal cfg univ, p.risk_amount = ra := by
      intro p hp
      unfold planPositionsFinal at hp
      split at hp
      · obtain ⟨q, hq, rfl⟩ := List.mem_map.mp hp
        exact (hmem q hq).1
      · exact (hmem p hp).1
    have hlenraw : (planPositionsRaw cfg univ).length ≤ cfg.max_positions := by
      unfold planPositionsRaw
      exact (List.length_filterMap_le _ _).trans (List.length_take_le _ _)
    have hlen : (planPositionsFinal cfg univ).length ≤ cfg.max_positions := by
      unfold planPositionsFinal
      split
      · rw [List.length_map]
        exact hlenraw
      · exact hlenraw
    rw [sum_risk_const ra _ hall]
    have hcast : ((planPositionsFinal cfg univ).length : ℚ) ≤ (cfg.max_positions : ℚ) := by
      exact_mod_cast hlen
    calc ((planPositionsFinal cfg univ).length : ℚ) * ra
        ≤ (cfg.max_positions : ℚ) * ra := mul_le_mul_of_nonneg_right hcast hra0
      _ = ra * cfg.max_positions := mul_comm _ _

/-- C1 witness: the invariants at a concrete input — the demonstration
configuration (capital 4000, risk 2 percent, at most 3 positions, permissive
filter) over the one-candidate universe — by the theorem, every hypothesis
discharged there. -/
theorem plan_capital_and_risk_invariants_witness :
    (demoPlan.positions.map PlanPosition.position_value).sum ≤ demoConfig.total_capital ∧
    (demoPlan.positions.map PlanPosition.risk_amount).sum ≤
      demoConfig.total_capital * demoConfig.risk_percentage / 100 * demoConfig.max_positions :=
  plan_capital_and_risk_invariants demoConfig demoUniverse demoPlan
    (by norm_num [demoConfig]) (by norm_num [demoConfig])
    (by norm_num [demoConfig])
    (by
      have hne : (planCandidates demoConfig demoUniverse).isEmpty = false := rfl
      unfold demoPlan
      cases hcp : createPlan demoConfig demoUniverse with
      | error e =>
        unfold createPlan at hcp
        rw [hne] at hcp
        cases hcp
      | ok p => simp [hcp, Except.toOption])

/-- C5: createPlan fails with the NoCandidates error exactly when zero symbols
survive the embedded filter; the client recognizes the resulting 404 status
and shows the loosen-your-filters suggestion, while every other status
produces the generic failure message. -/
theorem createPlan_noCandidates_behavior (cfg : TradingPlanConfig)
    (univ : List Candidate) (detail : Option String) (msg : String) :
    (createPlan cfg univ = .error .noCandidates ↔ applyFilter cfg.filters univ = []) ∧
    (applyFilter cfg.filters univ = [] →
      planBuilderErrorMessage (planStatus (createPlan cfg univ)) detail msg =
        "No stocks found matching your criteria. Try reducing the pattern filters or adjusting price/volume ranges.") ∧
    (∀ st, st ≠ some 404 →
      planBuilderErrorMessage st detail msg =
        "Failed to create trading plan: " ++ detail.getD msg) := by
  have hiff : createPlan cfg univ = .error .noCandidates ↔
      applyFilter cfg.filters univ = [] := by
    unfold createPlan planCandidates
    split <;> rename_i hempty
    · rw [List.isEmpty_iff] at hempty
      simp [hempty]
    · simp only [List.isEmpty_iff] at hempty
      constructor
      · intro h
        cases h
      · intro h
        exact absurd h hempty
  refine ⟨hiff, ?_, ?_⟩
  · intro hempty
    rw [hiff.mpr hempty]
    rfl
  · intro st hst
    unfold planBuilderErrorMessage
    rw [if_neg hst]

/-- C5 witness: the scenario at a concrete input — a 300..310 price band
filter against a universe whose only symbol trades at 180 leaves no survivor,
so by the theorem the client shows the loosen-your-filters suggestion, and a
non-404 status shows the generic message. -/
theorem createPlan_noCandidates_behavior_witness :
    planBuilderErrorMessage
      (planStatus (createPlan ⟨"Band", 4000, 2, 3, ⟨300, 310, 0, 0, none, []⟩⟩ demoUniverse))
      none "Request failed" =
      "No stocks found matching your criteria. Try reducing the pattern filters or adjusting price/volume ranges." ∧
    planBuilderErrorMessage (some 500) none "Request failed" =
      "Failed to create trading plan: " ++ Option.getD none "Request failed" :=
  ⟨(createPlan_noCandidates_behavior
      ⟨"Band", 4000, 2, 3, ⟨300, 310, 0, 0, none, []⟩⟩ demoUniverse none "Request failed").2.1
     rfl,
   (createPlan_noCandidates_behavior
      ⟨"Band", 4000, 2, 3, ⟨300, 310, 0, 0, none, []⟩⟩ demoUniverse none "Request failed").2.2
     (some 500) (by decide)⟩

/-- C2: on a cache miss for the key (canonical filter, trading date) the first
screen call computes the result through the orchestrator, stores it under that
key, and returns it with served-from-cache false; a second call with the
identical filter on the same trading date returns the identical result list
with served-from-cache true and leaves the store unchanged. -/
theorem screen_get_or_compute (orch : ScreenFilters → List ScreenRecord)
    (f : ScreenFilters) (d : ℕ) (cache : ScreenCache)
    (hmiss : cacheLookup (f, d) cache = none) :
    (screen orch f d cache).1.results = orch f ∧
    (screen orch f d cache).1.from_cache = false ∧
    (screen orch f d cache).2 = ((f, d), orch f) :: cache ∧
    (screen orch f d (screen orch f d cache).2).1.results =
      (screen orch f d cache).1.results ∧
    (screen orch f d (screen orch f d cache).2).1.from_cache = true ∧
    (screen orch f d (screen orch f d cache).2).2 = (screen orch f d cache).2 := by
  simp [screen, hmiss, cacheLookup]

/-- C2 witness: the contract at a concrete input — the demonstration
orchestrator, the default filters, trading date 0 and the empty store — by the
theorem, whose miss hypothesis holds definitionally on the empty store. -/
theorem screen_get_or_compute_witness :
    (screen demoOrch defaultFilters 0 []).1.results = demoOrch defaultFilters ∧
    (screen demoOrch defaultFilters 0 []).1.from_cache = false ∧
    (screen demoOrch defaultFilters 0 []).2 =
      ((defaultFilters, 0), demoOrch defaultFilters) :: [] ∧
    (screen demoOrch defaultFilters 0 (screen demoOrch defaultFilters 0 []).2).1.results =
      (screen demoOrch defaultFilters 0 []).1.results ∧
    (screen demoOrch defaultFilters 0 (screen demoOrch defaultFilters 0 []).2).1.from_cache = true ∧
    (screen demoOrch defaultFilters 0 (screen demoOrch defaultFilters 0 []).2).2 =
      (screen demoOrch defaultFilters 0 []).2 :=
  screen_get_or_compute demoOrch defaultFilters 0 [] rfl

/-- C3: in every state reachable from the empty cache for a key, at most one
orchestrator run was ever started (so at no time is more than one live), every
result delivered to a caller is the single run's result, and as soon as any
caller has arrived (a waiter exists, someone was served, or a run is live)
exactly one run was started. -/
theorem cache_single_flight (compute : List ScreenRecord) (s : FlightState)
    (h : FlightReachable compute s) :
    s.runs ≤ 1 ∧ (∀ r ∈ s.served, r = compute) ∧
    ((s.waiting ≠ 0 ∨ s.served ≠ [] ∨ s.inflight = true) → s.runs = 1) := by
  rcases flightInv_reachable h with ⟨h0, _, hin, hw, hsv⟩ | ⟨h1, hserved, _⟩
  · refine ⟨by omega, ?_, ?_⟩
    · intro r hr
      rw [hsv] at hr
      exact absurd hr (List.not_mem_nil r)
    · rintro (hc | hc | hc)
      · exact absurd hw hc
      · exact absurd hsv hc
      · rw [hin] at hc; cases hc
  · exact ⟨le_of_eq h1, hserved, fun _ => h1⟩

/-- C3 witness: two callers arrive concurrently on the empty cache (one starts
the run, one joins it) and the run completes, serving both the computed
result; the theorem applied to this concrete reachable state gives one run and
both callers served that run's result. -/
theorem cache_single_flight_witness :
    (⟨some (demoOrch defaultFilters), false, 0,
        [demoOrch defaultFilters, demoOrch defaultFilters], 1⟩ : FlightState).runs ≤ 1 ∧
    (∀ r ∈ (⟨some (demoOrch defaultFilters), false, 0,
        [demoOrch defaultFilters, demoOrch defaultFilters], 1⟩ : FlightState).served,
      r = demoOrch defaultFilters) ∧
    (((⟨some (demoOrch defaultFilters), false, 0,
        [demoOrch defaultFilters, demoOrch defaultFilters], 1⟩ : FlightState).waiting ≠ 0 ∨
      (⟨some (demoOrch defaultFilters), false, 0,
        [demoOrch defaultFilters, demoOrch defaultFilters], 1⟩ : FlightState).served ≠ [] ∨
      (⟨some (demoOrch defaultFilters), false, 0,
        [demoOrch defaultFilters, demoOrch defaultFilters], 1⟩ : FlightState).inflight = true) →
      (⟨some (demoOrch defaultFilters), false, 0,
        [demoOrch defaultFilters, demoOrch defaultFilters], 1⟩ : FlightState).runs = 1) :=
  cache_single_flight (demoOrch defaultFilters)
    ⟨some (demoOrch defaultFilters), false, 0,
      [demoOrch defaultFilters, demoOrch defaultFilters], 1⟩
    (by
      refine Relation.ReflTransGen.head (FlightStep.missStart rfl rfl) ?_
      refine Relation.ReflTransGen.head (FlightStep.missJoin rfl rfl) ?_
      exact Relation.ReflTransGen.single (FlightStep.complete rfl))

/-- C4: every ScreenResult produced by the orchestrator sort is ordered by
score descending with ties broken by symbol ascending (pairwise
`screenOrder`), and the screener's default display sort (stable, score
descending) leaves any such list unchanged, preserving the rule. -/
theorem screen_results_sorted_and_display_preserves (l : List ScreenRecord) :
    List.Sorted screenOrder (sortScreenResults l) ∧
    (List.Sorted screenOrder l → displaySort l = l) := by
  constructor
  · exact List.sorted_insertionSort screenOrder l
  · intro h
    have hd : List.Sorted displayOrder l := by
      refine h.imp (fun hab => ?_)
      rcases hab with hlt | ⟨heq, _⟩
      · exact le_of_lt hlt
      · exact le_of_eq heq.symm
    exact hd.insertionSort_eq

/-- C4 witness: on a concrete three-record list the orchestrator sort yields a
list satisfying the rule (equal scores ordered by symbol ascending) and the
display sort leaves it unchanged, by the theorem applied to that list. -/
theorem screen_results_sorted_and_display_preserves_witness :
    List.Sorted screenOrder
      (sortScreenResults
        [⟨"MSFT", 25, 300, 1000, 100⟩, ⟨"AAPL", 25, 180, 2000, 200⟩,
         ⟨"NVDA", 30, 700, 3000, 300⟩]) ∧
    displaySort
      [⟨"NVDA", 30, 700, 3000, 300⟩, ⟨"AAPL", 25, 180, 2000, 200⟩,
       ⟨"MSFT", 20, 300, 1000, 100⟩] =
      [⟨"NVDA", 30, 700, 3000, 300⟩, ⟨"AAPL", 25, 180, 2000, 200⟩,
       ⟨"MSFT", 20, 300, 1000, 100⟩] :=
  ⟨(screen_results_sorted_and_display_preserves
      [⟨"MSFT", 25, 300, 1000, 100⟩, ⟨"AAPL", 25, 180, 2000, 200⟩,
       ⟨"NVDA", 30, 700, 3000, 300⟩]).1,
   (screen_results_sorted_and_display_preserves
      [⟨"NVDA", 30, 700, 3000, 300⟩, ⟨"AAPL", 25, 180, 2000, 200⟩,
       ⟨"MSFT", 20, 300, 1000, 100⟩]).2
    (by simp [List.sorted_cons, screenOrder]; norm_num)⟩

/-- C10: the screener filter load is total and corruption-tolerant — a
parseable stored entry is returned as parsed, and a missing entry, a corrupt
entry, or a throwing storage all yield the default filter set
(min_price 1, max_price 1000, min_volume 10000, min_market_cap 10000000,
max_market_cap empty, patterns empty) — and saving a filter set then loading
returns that same filter set. -/
theorem loadFilters_total_and_roundtrip :
    (∀ v, loadFilters false (.parsed v) = v) ∧
    (loadFilters false .absent =
      encodeFilters
        { min_price := 1, max_price := 1000, min_volume := 10000,
          min_market_cap := 10000000, max_market_cap := "", patterns := [] }) ∧
    (loadFilters false .corrupt = encodeFilters defaultFilters) ∧
    (∀ e, loadFilters true e = encodeFilters defaultFilters) ∧
    (∀ f, loadFilters false (saveFilters f) = encodeFilters f ∧
      decodeFilters (encodeFilters f) = some f) := by
  refine ⟨fun v => rfl, rfl, rfl, fun e => rfl, fun f => ⟨rfl, ?_⟩⟩
  simp [encodeFilters, decodeFilters, decodeStrings_map_str]

/-- C6: an IndicatorSet field is present (and numeric) exactly when its
required lookback of bars is available; with fewer bars the field is absent —
none, not zero and not an error — in which case the report renders it as N/A
and it contributes no score term. -/
theorem indicator_lookback_policy (f : IndField) (bars : List Bar)
    (fmt : ℚ → String) (w : IndValue → ℚ) :
    ((getField f (computeIndicators bars)).isSome ↔ lookbackOf f ≤ bars.length) ∧
    (¬ lookbackOf f ≤ bars.length →
      getField f (computeIndicators bars) = none ∧
      renderField fmt (getField f (computeIndicators bars)) = "N/A" ∧
      scoreTerms w (getField f (computeIndicators bars)) = []) := by
  cases f <;>
    simp only [getField, computeIndicators, lookbackOf, rsi14, macdLine,
      macdSignal, macdHistogram, adx14, sma, atr14, volAvg20, volRatio20,
      volSpike20] <;>
    split <;> rename_i h <;> simp [h, renderField, scoreTerms]

/-- C6 witness: on an empty bar series the ADX field is absent, renders as
N/A and contributes no score term, by the theorem at that concrete input. -/
theorem indicator_lookback_policy_witness :
    getField .adx (computeIndicators []) = none ∧
    renderField (fun _ => "") (getField .adx (computeIndicators [])) = "N/A" ∧
    scoreTerms (fun _ => 1) (getField .adx (computeIndicators [])) = [] :=
  (indicator_lookback_policy .adx [] (fun _ => "") (fun _ => 1)).2 (by decide)

/-- C7: when the swing high strictly exceeds the swing low, the Fibonacci
level prices are strictly monotonic in the ratio label in the direction of the
detected swing — strictly increasing for an uptrend retracement, strictly
decreasing for a downtrend retracement, the direction fixed once per
computation. -/
theorem fib_levels_strictly_monotonic (w : List Bar)
    (h : swingLow w < swingHigh w) :
    (fibUptrend w = true →
      List.Pairwise (fun p q : ℚ × ℚ => p.2 < q.2) (fibLevels w)) ∧
    (fibUptrend w = false →
      List.Pairwise (fun p q : ℚ × ℚ => q.2 < p.2) (fibLevels w)) := by
  have hd : 0 < swingHigh w - swingLow w := by linarith
  have hr : List.Pairwise (fun a b : ℚ => a < b) fibRatios := by
    norm_num [fibRatios, List.pairwise_cons]
  constructor
  · intro hu
    simp only [fibLevels, hu, if_true]
    rw [List.pairwise_map]
    refine hr.imp (fun hab => ?_)
    have hm := mul_lt_mul_of_pos_right hab hd
    dsimp only
    linarith
  · intro hu
    simp only [fibLevels, hu, Bool.false_eq_true, if_false]
    rw [List.pairwise_map]
    refine hr.imp (fun hab => ?_)
    have hm := mul_lt_mul_of_pos_right hab hd
    dsimp only
    linarith

/-- C7 witness: a two-bar uptrend window (low before high) yields strictly
increasing level prices and the reversed window yields strictly decreasing
ones, by the theorem at those concrete windows. -/
theorem fib_levels_strictly_monotonic_witness :
    List.Pairwise (fun p q : ℚ × ℚ => p.2 < q.2)
      (fibLevels [⟨5, 4, 9/2, 100⟩, ⟨10, 6, 9, 100⟩]) ∧
    List.Pairwise (fun p q : ℚ × ℚ => q.2 < p.2)
      (fibLevels [⟨10, 6, 9, 100⟩, ⟨5, 4, 9/2, 100⟩]) :=
  ⟨(fib_levels_strictly_monotonic [⟨5, 4, 9/2, 100⟩, ⟨10, 6, 9, 100⟩]
      (by decide)).1 (by decide),
   (fib_levels_strictly_monotonic [⟨10, 6, 9, 100⟩, ⟨5, 4, 9/2, 100⟩]
      (by decide)).2 (by decide)⟩

/-- C8: for every numeric score s, the conviction tier is HIGH iff s ≥ 20,
MODERATE iff 10 ≤ s < 20 and LOW iff s < 10, and the screener score badge
applies the same bucketing: success iff the tier is HIGH, warning iff the tier
is MODERATE, default otherwise (iff s < 10). -/
theorem conviction_tier_and_badge_bucketing (s : ℚ) :
    (convictionTier s = .HIGH ↔ 20 ≤ s) ∧
    (convictionTier s = .MODERATE ↔ 10 ≤ s ∧ s < 20) ∧
    (convictionTier s = .LOW ↔ s < 10) ∧
    (scoreBadgeColor s = "success" ↔ convictionTier s = .HIGH) ∧
    (scoreBadgeColor s = "warning" ↔ convictionTier s = .MODERATE) ∧
    (scoreBadgeColor s = "default" ↔ s < 10) := by
  unfold convictionTier scoreBadgeColor
  by_cases h20 : 20 ≤ s <;> by_cases h10 : 10 ≤ s <;> simp [h20, h10] <;> linarith

/-- C9: the regime returned is exactly one of the four values, chosen by
ordered evaluation — BULL_TREND iff price > SMA20 > SMA50 and the volatility
index is below the calm threshold; otherwise RISK_OFF iff the volatility index
is above the stress threshold or price < SMA50; otherwise RISK_ON iff breadth
exceeds the majority threshold; otherwise UNCERTAIN — and, in particular, a
volatility index of 14 below the calm threshold with price above SMA20 above
SMA50 yields BULL_TREND. -/
theorem classifyRegime_ordered_evaluation (t : RegimeThresholds) (i : RegimeInputs) :
    (classifyRegime t i = .BULL_TREND ↔
      (i.sma20 < i.price ∧ i.sma50 < i.sma20 ∧ i.vix < t.calm)) ∧
    (classifyRegime t i = .RISK_OFF ↔
      (¬(i.sma20 < i.price ∧ i.sma50 < i.sma20 ∧ i.vix < t.calm) ∧
        (t.stress < i.vix ∨ i.price < i.sma50))) ∧
    (classifyRegime t i = .RISK_ON ↔
      (¬(i.sma20 < i.price ∧ i.sma50 < i.sma20 ∧ i.vix < t.calm) ∧
        ¬(t.stress < i.vix ∨ i.price < i.sma50) ∧ t.majority < i.breadth)) ∧
    (classifyRegime t i = .UNCERTAIN ↔
      (¬(i.sma20 < i.price ∧ i.sma50 < i.sma20 ∧ i.vix < t.calm) ∧
        ¬(t.stress < i.vix ∨ i.price < i.sma50) ∧ ¬t.majority < i.breadth)) ∧
    (i.vix = 14 → (14 : ℚ) < t.calm → i.sma20 < i.price → i.sma50 < i.sma20 →
      classifyRegime t i = .BULL_TREND) := by
  unfold classifyRegime
  by_cases h1 : i.sma20 < i.price ∧ i.sma50 < i.sma20 ∧ i.vix < t.calm <;>
    by_cases h2 : t.stress < i.vix ∨ i.price < i.sma50 <;>
      by_cases h3 : t.majority < i.breadth <;>
        simp [h1, h2, h3] <;> intro hv hc hp <;>
          exact le_of_not_lt (fun hs => h1 ⟨hp, hs, hv.symm ▸ hc⟩)

/-- C9 witness: the scenario at concrete inputs — thresholds (calm 20, stress
25, majority 1/2), benchmark price 450 above SMA20 440 above SMA50 430, VIX 14,
breadth 0.6 — yields BULL_TREND by the theorem. -/
theorem classifyRegime_ordered_evaluation_witness :
    classifyRegime ⟨20, 25, 1/2⟩ ⟨450, 440, 430, 14, 3/5⟩ = .BULL_TREND :=
  (classifyRegime_ordered_evaluation ⟨20, 25, 1/2⟩ ⟨450, 440, 430, 14, 3/5⟩).2.2.2.2
    rfl (by norm_num) (by norm_num) (by norm_num)

/-- C9 counterexample: a volatility index of 14 (below the calm threshold 20)
with the benchmark price 450 above both SMA20 (430) and SMA50 (440) does NOT
yield BULL_TREND — the regime rule also requires SMA20 above SMA50, and with
SMA20 below SMA50 the ordered evaluation falls through to RISK_ON here. -/
theorem classifyRegime_scenario_counterexample :
    (430 : ℚ) < 450 ∧ (440 : ℚ) < 450 ∧ (14 : ℚ) < 20 ∧
    classifyRegime ⟨20, 25, 0⟩ ⟨450, 430, 440, 14, 1⟩ = .RISK_ON ∧
    classifyRegime ⟨20, 25, 0⟩ ⟨450, 430, 440, 14, 1⟩ ≠ .BULL_TREND := by
  refine ⟨by norm_num, by norm_num, by norm_num, ?_, ?_⟩
  · norm_num [classifyRegime]
  · norm_num [classifyRegime]
    decide

end TradingPlanRepo
